import Mathlib

/-!
Verification of the HTML extraction and normalization pipeline of
`Lab 1/app.py` (YouTube channel video scraper).

Embedding conventions:

* Python strings are modelled as `List Char` (called `Str` below); Python
  string methods (`strip`, `replace` with empty replacement, `startswith`)
  are re-implemented over lists, faithful to their semantics on the inputs
  the program uses.
* Python `float(...)` parsing and arithmetic are modelled with exact
  rational numbers (`ℚ`): the parser accepts an optional sign, an integer
  part and an optional fractional part (the subset of Python float syntax
  relevant here; exponents, underscores, inf and nan are not modelled, the
  program never relies on them), and `int(...)` of a float value is
  truncation toward zero, modelled by `ratTruncMul`.  IEEE-754 double
  rounding is not modelled; on every concrete input appearing in the
  claims the exact-rational value and the double value truncate to the
  same integer.
* Python exceptions are modelled with `Except Str`: a BeautifulSoup query
  that raises is an `Except.error`; `try ... except` blocks become matches
  on the `Except` value.
* The BeautifulSoup DOM is abstracted: a parsed document (`Doc`) is a
  function from CSS selector text to a list of container elements, and an
  element (`Elem`) carries its `select_one` / `select` query functions;
  a matched node (`Node`) carries its attribute lookup and its stripped
  text.  The logic under verification is the pipeline code of
  `parse_html`, which is translated statement by statement; the claims
  quantify over all documents, hence over everything the HTML parser
  could produce.
* `datetime.now()` is the only non-determinism in `parse_html`; it is
  modelled as an explicit `now : Str` argument.
-/

/-- Python strings, modelled as lists of characters. -/
abbrev Str := List Char

/-- Python `str.strip()`: remove leading and trailing whitespace. -/
def strip (s : Str) : Str :=
  ((s.dropWhile Char.isWhitespace).reverse.dropWhile Char.isWhitespace).reverse

/-- Fuel-indexed worker for `removeAll`.  Each step either removes one
occurrence of the pattern at the current position or keeps one character,
scanning left to right, exactly like Python `str.replace(pat, "")` with a
non-empty pattern. -/
def removeAllGo (pat : Str) : Nat → Str → Str
  | _, [] => []
  | 0, s => s
  | Nat.succ fuel, c :: cs =>
    if pat.isPrefixOf (c :: cs) then removeAllGo pat fuel (List.drop pat.length (c :: cs))
    else c :: removeAllGo pat fuel cs

/-- Python `s.replace(pat, "")` for the non-empty patterns used by
`convert_views_to_number` (`" views"`, `" view"`, `"K"`, `"M"`, `"B"`,
`","`): delete every non-overlapping occurrence of `pat`, left to right.
The fuel `s.length` suffices because every step consumes at least one
character of the remaining input. -/
def removeAll (pat s : Str) : Str :=
  if pat.isEmpty then s else removeAllGo pat s.length s

/-- Numeric value of a digit string, most significant digit first. -/
def natDigitsVal (s : Str) : Nat :=
  s.foldl (fun acc c => acc * 10 + (c.toNat - 48)) 0

/-- Truncation toward zero of the product `q * c` of a rational and an
integer constant: the value of Python `int(x * c)` where `x` is the
(exactly modelled) float value.  Since the denominator is positive,
the product is `(q.num * c) / q.den` and `Int.tdiv` is exactly
truncation toward zero. -/
def ratTruncMul (q : ℚ) (c : ℤ) : ℤ :=
  Int.tdiv (q.num * c) (q.den : ℤ)

/-- Unsigned part of Python `float(...)` parsing: digits, optionally a
point and more digits, at least one digit in total.  Returns the exact
decimal value. -/
def parseUnsignedFloat (t : Str) : Option ℚ :=
  let ip := t.takeWhile Char.isDigit
  let rest := t.dropWhile Char.isDigit
  match rest with
  | [] => if ip.isEmpty then none else some (mkRat (natDigitsVal ip : ℤ) 1)
  | '.' :: fp =>
    if fp.all Char.isDigit && !(ip.isEmpty && fp.isEmpty) then
      some (mkRat ((natDigitsVal ip * 10 ^ fp.length + natDigitsVal fp : Nat) : ℤ) (10 ^ fp.length))
    else none
  | _ => none

/-- Python `float(text)` on the inputs relevant here: strip whitespace,
optional sign, decimal literal; failure (`ValueError`) is `none`. -/
def parseFloat (s : Str) : Option ℚ :=
  match strip s with
  | [] => none
  | c :: rest =>
    if c = '-' then (parseUnsignedFloat rest).map Neg.neg
    else if c = '+' then parseUnsignedFloat rest
    else parseUnsignedFloat (c :: rest)

/-- Digit run accepted by Python `int(...)` after sign removal. -/
def parseNatDigits (t : Str) : Option Nat :=
  match t with
  | [] => none
  | c :: cs =>
    if (c :: cs).all Char.isDigit then some (natDigitsVal (c :: cs)) else none

/-- Python `int(text)` on a string: strip whitespace, optional sign,
non-empty digit run; failure (`ValueError`) is `none`. -/
def parseInt (s : Str) : Option ℤ :=
  match strip s with
  | [] => none
  | c :: rest =>
    if c = '-' then (parseNatDigits rest).map (fun n => -(n : ℤ))
    else if c = '+' then (parseNatDigits rest).map (fun n => (n : ℤ))
    else (parseNatDigits (c :: rest)).map (fun n => (n : ℤ))

/-- Body of the `try` block of `convert_views_to_number` (app.py lines
158-179): strip the unit word and whitespace, then branch on the suffix
letters `K`, `M`, `B` in that order, else parse a plain comma-separated
integer.  `none` is an exception escaping the `try` body. -/
def convert_views_attempt (views_text : Str) : Option ℤ :=
  let text := strip (removeAll (" view".toList) (removeAll (" views".toList) views_text))
  if text.contains 'K' then
    (parseFloat (removeAll ['K'] text)).map (fun q => ratTruncMul q 1000)
  else if text.contains 'M' then
    (parseFloat (removeAll ['M'] text)).map (fun q => ratTruncMul q 1000000)
  else if text.contains 'B' then
    (parseFloat (removeAll ['B'] text)).map (fun q => ratTruncMul q 1000000000)
  else
    parseInt (removeAll [','] text)

/-- `convert_views_to_number` (app.py lines 147-183): the abbreviated
view-count normalizer; the `except` clause turns any failure into 0. -/
def convert_views_to_number (views_text : Str) : ℤ :=
  (convert_views_attempt views_text).getD 0

/-- A matched DOM node, as the extraction code observes it: an attribute
lookup (BeautifulSoup `tag.get(name)`, `none` for a missing attribute)
and the stripped visible text (`tag.get_text(strip=True)`). -/
structure Node where
  attr : Str → Option Str
  text : Str

/-- A candidate container element: its `select_one` and `select` query
functions.  A query that raises an exception is an `Except.error`. -/
structure Elem where
  selectOne : Str → Except Str (Option Node)
  select : Str → Except Str (List Node)

/-- A parsed document: its `select` query over container selectors. -/
structure Doc where
  select : Str → Except Str (List Elem)

/-- One accepted listing entry: the dictionary appended to `videos` in
`parse_html` (columns Title, URL, Views, Posted, Scraped At). -/
structure Record where
  title : Str
  url : Str
  views : ℤ
  posted : Str
  scrapedAt : Str
deriving DecidableEq

/-- Outcome of `parse_html`: the Python function returns the tuple
`(True, dataframe, None)` on success and `(False, None, message)` on
failure; the dataframe is a verbatim table of the record list. -/
inductive ParseResult where
  | ok (records : List Record) : ParseResult
  | err (msg : Str) : ParseResult

/-- The ordered container selector list of `parse_html` (lines 202-206). -/
def containerSelectors : List Str :=
  ["ytd-grid-video-renderer".toList,
   "ytd-rich-item-renderer".toList,
   "div#dismissible".toList]

/-- The ordered title selector list (lines 227-233). -/
def titleSelectors : List Str :=
  ["#video-title".toList,
   "a#video-title-link".toList,
   "a[title]".toList,
   "h3 a".toList,
   "yt-formatted-string#video-title".toList]

/-- The URL selector (line 244). -/
def urlSelector : Str := "a#video-title-link, a#video-title".toList

/-- The ordered metadata selector list (lines 253-257). -/
def metadataSelectors : List Str :=
  ["#metadata-line span".toList,
   "div#metadata-line span".toList,
   "ytd-video-meta-block span".toList]

/-- The platform origin prefixed to relative link references (line 247). -/
def ytOrigin : Str := "https://www.youtube.com".toList

/-- The sentinel posted label (line 251). -/
def notAvailable : Str := "N/A".toList

/-- Failure message when no container matcher matched (line 217). -/
def noContainersMsg : Str :=
  "No video elements found. Page structure may have changed or content didn\x27t load.".toList

/-- Failure message when containers matched but no record was accepted
(line 287). -/
def noRecordsMsg : Str :=
  "No videos were successfully parsed. Check if the page loaded correctly.".toList

/-- Prefix of the failure message produced by the outer exception handler
of `parse_html` (line 296). -/
def parsingFailedPrefix : Str := "Parsing failed - ".toList

/-- The container-locator loop of `parse_html` (lines 208-214): take the
result set of the first selector whose `select` is non-empty; an
exception escapes to the outer handler. -/
def selectLoop (doc : Doc) : List Str → Except Str (List Elem)
  | [] => .ok []
  | sel :: rest =>
    match doc.select sel with
    | .error m => .error m
    | .ok [] => selectLoop doc rest
    | .ok (e :: es) => .ok (e :: es)

/-- The Container Locator: `selectLoop` over the fixed selector list. -/
def findContainers (doc : Doc) : Except Str (List Elem) :=
  selectLoop doc containerSelectors

/-- The title extraction loop (lines 226-240).  The accumulator is the
current value of the Python variable `title` (`none` is Python `None`).
For a matched element, `get(title) or get_text(strip=True)` prefers a
non-empty attribute; the loop breaks only when the resulting value is
non-empty (truthy), otherwise the falsy value is kept and the next
selector is tried. -/
def titleLoop (e : Elem) : List Str → Option Str → Except Str (Option Str)
  | [], title => .ok title
  | sel :: rest, title =>
    match e.selectOne sel with
    | .error m => .error m
    | .ok none => titleLoop e rest title
    | .ok (some node) =>
      let t := match node.attr ("title".toList) with
               | some (c :: cs) => c :: cs
               | _ => node.text
      match t with
      | [] => titleLoop e rest (some [])
      | c :: cs => .ok (some (c :: cs))

/-- The URL extraction (lines 242-247): one `select_one` query; a truthy
`href` that starts with a path separator is prefixed with the platform
origin, any other truthy `href` is used verbatim; a missing or empty
`href` leaves the URL unset. -/
def extractUrl (e : Elem) : Except Str (Option Str) :=
  match e.selectOne urlSelector with
  | .error m => .error m
  | .ok none => .ok none
  | .ok (some node) =>
    match node.attr ("href".toList) with
    | some (c :: cs) =>
      .ok (some (if c = '/' then ytOrigin ++ c :: cs else c :: cs))
    | _ => .ok none

/-- The metadata extraction loop (lines 250-269), carrying the current
values of `views` and `time_posted`.  Two or more spans: take views and
posted label and break.  Exactly one span: set views only and fall
through to the next selector (the Python branch has no `break`).  Zero
spans: try the next selector. -/
def metaLoop (e : Elem) : List Str → ℤ → Str → Except Str (ℤ × Str)
  | [], views, posted => .ok (views, posted)
  | sel :: rest, views, posted =>
    match e.select sel with
    | .error m => .error m
    | .ok (s1 :: s2 :: _) => .ok (convert_views_to_number s1.text, s2.text)
    | .ok [s1] => metaLoop e rest (convert_views_to_number s1.text) posted
    | .ok [] => metaLoop e rest views posted

/-- Python truthiness of an optional string: `none` (Python `None`) and
the empty string are falsy; a non-empty string yields itself. -/
def truthyVal : Option Str → Option Str
  | some (c :: cs) => some (c :: cs)
  | _ => none

/-- The body of the per-container `try` block (lines 224-280): extract
title, url and metadata, then append a record only if both title and url
are truthy (`if title and url:`).  `Except.error` is an exception
reaching the per-container handler. -/
def extractRecord (now : Str) (e : Elem) : Except Str (Option Record) :=
  match titleLoop e titleSelectors none with
  | .error m => .error m
  | .ok title =>
    match extractUrl e with
    | .error m => .error m
    | .ok url =>
      match metaLoop e metadataSelectors 0 notAvailable with
      | .error m => .error m
      | .ok (views, posted) =>
        match truthyVal title, truthyVal url with
        | some t, some u => .ok (some ⟨t, u, views, posted, now⟩)
        | _, _ => .ok none

/-- The per-container loop of `parse_html` (lines 223-284): a container
whose extraction raises is logged and skipped (`except ... continue`); a
container failing the title-and-url check contributes nothing; accepted
records are collected in order. -/
def processContainers (now : Str) : List Elem → List Record
  | [] => []
  | e :: rest =>
    match extractRecord now e with
    | .error _ => processContainers now rest
    | .ok none => processContainers now rest
    | .ok (some r) => r :: processContainers now rest

/-- `parse_html` (app.py lines 185-299), with `datetime.now()` passed as
the explicit argument `now` and the parsed soup as `doc`.  An exception
escaping the container-locator stage is caught by the outer handler
(line 295); an empty container set and an empty accepted-record list are
the two distinct failures of lines 216-220 and 286-289. -/
def parse_html (now : Str) (doc : Doc) : ParseResult :=
  match findContainers doc with
  | .error m => .err (parsingFailedPrefix ++ m)
  | .ok [] => .err noContainersMsg
  | .ok (e :: es) =>
    match processContainers now (e :: es) with
    | [] => .err noRecordsMsg
    | v :: vs => .ok (v :: vs)

/-! Concrete documents, elements and records used by witnesses and
counterexamples. -/

/-- A fixed capture timestamp used in concrete runs. -/
def now0 : Str := "2026-01-01 12:00:00".toList

/-- A well-formed node: title attribute, relative href. -/
def nGood : Node :=
  ⟨fun a =>
     if a = "title".toList then some ("Video A".toList)
     else if a = "href".toList then some ("/watch?v=abc".toList)
     else none,
   "Video A".toList⟩

/-- A container whose queries always find `nGood` and no metadata spans. -/
def eGood : Elem := ⟨fun _ => .ok (some nGood), fun _ => .ok []⟩

/-- A document whose every container selector yields `[eGood]`. -/
def dGood : Doc := ⟨fun _ => .ok [eGood]⟩

/-- The record `parse_html` extracts from `dGood` at time `now0`. -/
def rGood : Record :=
  ⟨"Video A".toList, "https://www.youtube.com/watch?v=abc".toList, 0,
   "N/A".toList, now0⟩

/-- A document with no recognizable container markup. -/
def dEmpty : Doc := ⟨fun _ => .ok []⟩

/-- A container none of whose queries match anything. -/
def eNothing : Elem := ⟨fun _ => .ok none, fun _ => .ok []⟩

/-- A document with one container that yields no accepted record. -/
def dNoRec : Doc := ⟨fun _ => .ok [eNothing]⟩

/-- A container whose every query raises. -/
def eBoom : Elem :=
  ⟨fun _ => .error ("boom".toList), fun _ => .error ("boom".toList)⟩

/-- A node with an absolute href and no title attribute. -/
def nAbs : Node :=
  ⟨fun a => if a = "href".toList then some ("https://example.com/v".toList) else none,
   "Video B".toList⟩

/-- A container whose queries find `nAbs`. -/
def eAbs : Elem := ⟨fun _ => .ok (some nAbs), fun _ => .ok []⟩

/-- A metadata span reading a one-thousand view count. -/
def spanOneK : Node := ⟨fun _ => none, "1K views".toList⟩

/-- A metadata span reading a two-thousand view count. -/
def spanTwoK : Node := ⟨fun _ => none, "2K views".toList⟩

/-- A metadata span reading a recency label. -/
def spanAgo : Node := ⟨fun _ => none, "3 days ago".toList⟩

/-- A container where the first metadata selector yields exactly one span
and the third yields two: realizable by a page whose `#metadata-line`
element is not a `div` and holds a single span, next to a
`ytd-video-meta-block` with two spans. -/
def eMetaFall : Elem :=
  ⟨fun _ => .ok none,
   fun sel =>
     if sel = "#metadata-line span".toList then .ok [spanOneK]
     else if sel = "ytd-video-meta-block span".toList then .ok [spanTwoK, spanAgo]
     else .ok []⟩

/-- A document where the first container selector misses and the second
hits. -/
def dSecond : Doc :=
  ⟨fun sel => if sel = "ytd-rich-item-renderer".toList then .ok [eGood] else .ok []⟩

/-! Helper lemmas. -/

/-- Truthiness inversion: a truthy optional string is that non-empty
string. -/
theorem truthyVal_eq_some {o : Option Str} {t : Str} (h : truthyVal o = some t) :
    o = some t ∧ t ≠ [] := by
  match o with
  | none => simp [truthyVal] at h
  | some [] => simp [truthyVal] at h
  | some (c :: cs) =>
    simp [truthyVal] at h
    exact ⟨by simp [h], by simp [← h]⟩

/-- A record accepted by the per-container extraction has a non-empty
title and a non-empty url, and its url is the one `extractUrl` found. -/
theorem extractRecord_accepted {now : Str} {e : Elem} {r : Record}
    (h : extractRecord now e = .ok (some r)) :
    r.title ≠ [] ∧ r.url ≠ [] ∧ extractUrl e = .ok (some r.url) := by
  unfold extractRecord at h
  cases h1 : titleLoop e titleSelectors none with
  | error m => rw [h1] at h; cases h
  | ok title =>
    rw [h1] at h
    cases h2 : extractUrl e with
    | error m => rw [h2] at h; cases h
    | ok url =>
      rw [h2] at h
      cases h3 : metaLoop e metadataSelectors 0 notAvailable with
      | error m => rw [h3] at h; cases h
      | ok vp =>
        obtain ⟨views, posted⟩ := vp
        rw [h3] at h
        dsimp only at h
        cases h4 : truthyVal title with
        | none => rw [h4] at h; dsimp only at h; cases h
        | some t =>
          cases h5 : truthyVal url with
          | none => rw [h4, h5] at h; dsimp only at h; cases h
          | some u =>
            rw [h4, h5] at h
            dsimp only at h
            simp only [Except.ok.injEq, Option.some.injEq] at h
            subst h
            obtain ⟨ht, hte⟩ := truthyVal_eq_some h4
            obtain ⟨hu, hue⟩ := truthyVal_eq_some h5
            exact ⟨hte, hue, by rw [hu]⟩

/-- Every record collected by the per-container loop comes from some
container whose extraction accepted it. -/
theorem mem_processContainers {now : Str} {r : Record} :
    ∀ {es : List Elem}, r ∈ processContainers now es →
      ∃ e, e ∈ es ∧ extractRecord now e = .ok (some r) := by
  intro es
  induction es with
  | nil => intro h; simp [processContainers] at h
  | cons e rest ih =>
    intro h
    unfold processContainers at h
    cases h1 : extractRecord now e with
    | error m =>
      rw [h1] at h
      obtain ⟨e2, he2, hx⟩ := ih h
      exact ⟨e2, List.mem_cons_of_mem _ he2, hx⟩
    | ok o =>
      rw [h1] at h
      cases o with
      | none =>
        obtain ⟨e2, he2, hx⟩ := ih h
        exact ⟨e2, List.mem_cons_of_mem _ he2, hx⟩
      | some r2 =>
        rcases List.mem_cons.1 h with hr | hr
        · exact ⟨e, List.mem_cons_self e rest, by rw [h1, hr]⟩
        · obtain ⟨e2, he2, hx⟩ := ih hr
          exact ⟨e2, List.mem_cons_of_mem _ he2, hx⟩

/-- Success of `parse_html` means the record list is the non-empty output
of the per-container loop on the located containers. -/
theorem parse_html_ok {now : Str} {doc : Doc} {rs : List Record}
    (h : parse_html now doc = .ok rs) :
    ∃ e es, findContainers doc = .ok (e :: es) ∧
      rs = processContainers now (e :: es) ∧ rs ≠ [] := by
  unfold parse_html at h
  cases hf : findContainers doc with
  | error m => rw [hf] at h; cases h
  | ok es =>
    rw [hf] at h
    cases es with
    | nil => cases h
    | cons e rest =>
      dsimp only at h
      cases hp : processContainers now (e :: rest) with
      | nil => rw [hp] at h; cases h
      | cons v vs =>
        rw [hp] at h
        dsimp only at h
        cases h
        exact ⟨e, rest, rfl, hp.symm, by simp⟩

/-! The claims. -/

/-- C1: a record reaches the output table only when both its title and
its url are non-empty after extraction; containers yielding an empty
title or url contribute no record. -/
theorem c1_records_have_nonempty_title_and_url (now : Str) (doc : Doc)
    (rs : List Record) (h : parse_html now doc = .ok rs) :
    ∀ r ∈ rs, r.title ≠ [] ∧ r.url ≠ [] := by
  intro r hr
  obtain ⟨e, es, _, hrs, _⟩ := parse_html_ok h
  rw [hrs] at hr
  obtain ⟨e2, _, hx⟩ := mem_processContainers hr
  obtain ⟨ht, hu, _⟩ := extractRecord_accepted hx
  exact ⟨ht, hu⟩

/-- C1 witness: a concrete successful run, whose single record has a
non-empty title and url. -/
theorem c1_witness : rGood.title ≠ [] ∧ rGood.url ≠ [] :=
  c1_records_have_nonempty_title_and_url now0 dGood [rGood] rfl rGood
    (List.mem_singleton.mpr rfl)

/-- C2: the Container Locator is first-match-wins: a selector whose
result set is non-empty determines the whole output and stops the scan;
a selector with an empty result set defers to the rest of the list; the
locator runs this loop on the fixed selector list. -/
theorem c2_container_locator_first_match_wins :
    (∀ (doc : Doc) (sel : Str) (rest : List Str) (e : Elem) (es : List Elem),
       doc.select sel = .ok (e :: es) →
       selectLoop doc (sel :: rest) = .ok (e :: es)) ∧
    (∀ (doc : Doc) (sel : Str) (rest : List Str),
       doc.select sel = .ok [] →
       selectLoop doc (sel :: rest) = selectLoop doc rest) ∧
    (∀ doc : Doc, findContainers doc = selectLoop doc containerSelectors) := by
  refine ⟨fun doc sel rest e es h => ?_, fun doc sel rest h => ?_, fun _ => rfl⟩ <;>
    simp [selectLoop, h]

/-- C2 witness: on `dSecond` the first selector yields nothing and the
second yields `[eGood]`, so the locator returns exactly the second
selector's result set. -/
theorem c2_witness : selectLoop dSecond containerSelectors = .ok [eGood] := by
  have h1 := c2_container_locator_first_match_wins.2.1 dSecond
    ("ytd-grid-video-renderer".toList)
    ["ytd-rich-item-renderer".toList, "div#dismissible".toList] rfl
  have h2 := c2_container_locator_first_match_wins.1 dSecond
    ("ytd-rich-item-renderer".toList) ["div#dismissible".toList] eGood [] rfl
  exact h1.trans h2

/-- C3: the Numeric Normalizer strips the unit word, checks the suffix
letters K, M, B in that order case-sensitively, scales the float prefix
by 1000, 1000000 or 1000000000 with truncation, and otherwise parses a
comma-separated integer: the values on the specified inputs, plus the
case-sensitivity of the suffix check (lowercase k is not a suffix and
the remaining text fails integer parsing). -/
theorem c3_normalizer_values :
    convert_views_to_number ("8.8K views".toList) = 8800 ∧
    convert_views_to_number ("1.2M views".toList) = 1200000 ∧
    convert_views_to_number ("2.5B views".toList) = 2500000000 ∧
    convert_views_to_number ("523 views".toList) = 523 ∧
    convert_views_to_number ("12,345 views".toList) = 12345 ∧
    convert_views_to_number ("8.8k views".toList) = 0 := by
  refine ⟨?_, ?_, ?_, ?_, ?_, ?_⟩ <;> decide

/-- C4: the Numeric Normalizer is total: it returns an integer for every
input string, any parse failure gives 0 rather than a propagated error,
and the three specified malformed inputs give 0. -/
theorem c4_normalizer_total_and_defaults_to_zero :
    (∀ s : Str, convert_views_attempt s = none → convert_views_to_number s = 0) ∧
    convert_views_to_number ("N/A".toList) = 0 ∧
    convert_views_to_number ([] : Str) = 0 ∧
    convert_views_to_number ("abc views".toList) = 0 := by
  refine ⟨fun s h => ?_, by decide, by decide, by decide⟩
  simp [convert_views_to_number, h]

/-- C4 witness: the failure clause applied at the concrete input
`"N/A"`. -/
theorem c4_witness :
    convert_views_attempt ("N/A".toList) = none ∧
    convert_views_to_number ("N/A".toList) = 0 :=
  ⟨by decide, c4_normalizer_total_and_defaults_to_zero.1 ("N/A".toList) (by decide)⟩

/-- C5: the pipeline never returns an empty success: an empty container
set gives the distinct NoContainersFound failure, a non-empty container
set with no accepted record gives the distinct NoRecordsParsed failure,
and every successful result carries at least one record. -/
theorem c5_no_empty_success (now : Str) (doc : Doc) :
    (findContainers doc = .ok [] → parse_html now doc = .err noContainersMsg) ∧
    (∀ (e : Elem) (es : List Elem), findContainers doc = .ok (e :: es) →
       processContainers now (e :: es) = [] →
       parse_html now doc = .err noRecordsMsg) ∧
    (∀ rs : List Record, parse_html now doc = .ok rs → rs ≠ []) := by
  refine ⟨fun h => ?_, fun e es h hp => ?_, fun rs h => ?_⟩
  · unfold parse_html
    rw [h]
  · unfold parse_html
    rw [h]
    dsimp only
    rw [hp]
  · obtain ⟨_, _, _, _, hne⟩ := parse_html_ok h
    exact hne

/-- C5 witness: the three clauses at concrete documents: no containers,
containers but no accepted record, and a successful run with one
record. -/
theorem c5_witness :
    parse_html now0 dEmpty = .err noContainersMsg ∧
    parse_html now0 dNoRec = .err noRecordsMsg ∧
    ([rGood] : List Record) ≠ [] :=
  ⟨(c5_no_empty_success now0 dEmpty).1 rfl,
   (c5_no_empty_success now0 dNoRec).2.1 eNothing [] rfl rfl,
   (c5_no_empty_success now0 dGood).2.2 [rGood] rfl⟩

/-- C6 counterexample: on `eMetaFall` the first metadata matcher yields
exactly one span, yet the outcome is determined by the third matcher
(views 2000, posted label set), not by the first (views 1000, sentinel
label) as the claim asserts. -/
theorem c6_counterexample :
    metaLoop eMetaFall metadataSelectors 0 notAvailable
      = .ok (2000, "3 days ago".toList) ∧
    metaLoop eMetaFall metadataSelectors 0 notAvailable
      ≠ .ok (1000, notAvailable) := by
  constructor
  · rfl
  · intro h
    have h2 : (Except.ok (2000, "3 days ago".toList) : Except Str (ℤ × Str))
        = .ok (1000, notAvailable) := h
    simp at h2

/-- C6 as amended: a metadata matcher with two or more spans determines
the outcome and stops the search; a matcher with exactly one span sets
the view count from that span, leaves the posted label as it was, and
falls through to the next matcher, which may overwrite; a matcher with
zero spans defers to the next matcher unchanged. -/
theorem c6_metadata_single_span_falls_through (e : Elem) (sel : Str)
    (rest : List Str) (views : ℤ) (posted : Str) :
    (∀ (s1 s2 : Node) (srest : List Node),
       e.select sel = .ok (s1 :: s2 :: srest) →
       metaLoop e (sel :: rest) views posted
         = .ok (convert_views_to_number s1.text, s2.text)) ∧
    (∀ s1 : Node, e.select sel = .ok [s1] →
       metaLoop e (sel :: rest) views posted
         = metaLoop e rest (convert_views_to_number s1.text) posted) ∧
    (e.select sel = .ok [] →
       metaLoop e (sel :: rest) views posted = metaLoop e rest views posted) := by
  refine ⟨fun s1 s2 srest h => ?_, fun s1 h => ?_, fun h => ?_⟩ <;>
    simp [metaLoop, h]

/-- C6 witness: the single-span clause applied at the first metadata
selector of `eMetaFall`: the loop continues with the remaining selectors
and the view count taken from the single span. -/
theorem c6_witness :
    metaLoop eMetaFall metadataSelectors 0 notAvailable
      = metaLoop eMetaFall
          ["div#metadata-line span".toList, "ytd-video-meta-block span".toList]
          (convert_views_to_number ("1K views".toList)) notAvailable :=
  (c6_metadata_single_span_falls_through eMetaFall ("#metadata-line span".toList)
    ["div#metadata-line span".toList, "ytd-video-meta-block span".toList]
    0 notAvailable).2.1 spanOneK rfl

/-- C8: URL absolutization: a matched, truthy link reference starting
with the path separator is prefixed with the platform origin, any other
matched reference is kept verbatim; and an accepted record's url is
exactly the value `extractUrl` produced. -/
theorem c8_url_absolutization :
    (∀ (e : Elem) (node : Node) (c : Char) (cs : Str),
       e.selectOne urlSelector = .ok (some node) →
       node.attr ("href".toList) = some (c :: cs) →
       extractUrl e = .ok (some (if c = '/' then ytOrigin ++ c :: cs else c :: cs))) ∧
    (∀ (now : Str) (e : Elem) (r : Record),
       extractRecord now e = .ok (some r) → extractUrl e = .ok (some r.url)) := by
  constructor
  · intro e node c cs h1 h2
    unfold extractUrl
    rw [h1]
    dsimp only
    rw [h2]
  · intro now e r h
    exact (extractRecord_accepted h).2.2

/-- C8 witness: a relative reference is prefixed with the platform
origin; an absolute reference passes through verbatim. -/
theorem c8_witness :
    extractUrl eGood = .ok (some ("https://www.youtube.com/watch?v=abc".toList)) ∧
    extractUrl eAbs = .ok (some ("https://example.com/v".toList)) := by
  constructor
  · have h := c8_url_absolutization.1 eGood nGood '/' ("watch?v=abc".toList) rfl rfl
    simpa using h
  · have h := c8_url_absolutization.1 eAbs nAbs 'h' ("ttps://example.com/v".toList) rfl rfl
    simpa using h

/-- C9: per-container isolation and boundary containment: a container
whose extraction raises is skipped and the loop continues with the rest
unchanged, and every invocation of the pipeline terminates in either a
success or a failure value. -/
theorem c9_isolation_and_boundary :
    (∀ (now m : Str) (e : Elem) (rest : List Elem),
       extractRecord now e = .error m →
       processContainers now (e :: rest) = processContainers now rest) ∧
    (∀ (now : Str) (doc : Doc),
       (∃ rs, parse_html now doc = .ok rs) ∨
       (∃ msg, parse_html now doc = .err msg)) := by
  constructor
  · intro now m e rest h
    simp [processContainers, h]
  · intro now doc
    cases h : parse_html now doc with
    | ok rs => exact Or.inl ⟨rs, rfl⟩
    | err msg => exact Or.inr ⟨msg, rfl⟩

/-- C9 witness: the raising container `eBoom` is skipped and the batch
continues with `eGood`; the boundary clause instantiated at a concrete
run. -/
theorem c9_witness :
    processContainers now0 [eBoom, eGood] = processContainers now0 [eGood] ∧
    ((∃ rs, parse_html now0 dGood = .ok rs) ∨
     (∃ msg, parse_html now0 dGood = .err msg)) :=
  ⟨c9_isolation_and_boundary.1 now0 ("boom".toList) eBoom [eGood] rfl,
   c9_isolation_and_boundary.2 now0 dGood⟩

/-- Erase the capture timestamp of a record (for comparison of two runs
up to `captured_at`). -/
def eraseTime (r : Record) : Record := { r with scrapedAt := [] }

/-- Erase every capture timestamp in a parse result. -/
def eraseTimes : ParseResult → ParseResult
  | .ok rs => .ok (rs.map eraseTime)
  | .err m => .err m

/-- Per-container extraction depends on the capture time only through the
`scrapedAt` field of the produced record. -/
theorem extractRecord_time_congr (t1 t2 : Str) (e : Elem) :
    (extractRecord t1 e).map (Option.map eraseTime)
      = (extractRecord t2 e).map (Option.map eraseTime) := by
  unfold extractRecord
  cases h1 : titleLoop e titleSelectors none with
  | error m => rfl
  | ok title =>
    cases h2 : extractUrl e with
    | error m => rfl
    | ok url =>
      cases h3 : metaLoop e metadataSelectors 0 notAvailable with
      | error m => rfl
      | ok vp =>
        obtain ⟨views, posted⟩ := vp
        dsimp only
        cases h4 : truthyVal title with
        | none => rfl
        | some t =>
          cases h5 : truthyVal url with
          | none => rfl
          | some u => simp [Except.map, eraseTime]

/-- The record batch of two runs agrees after erasing capture times. -/
theorem processContainers_time_congr (t1 t2 : Str) :
    ∀ es : List Elem,
      (processContainers t1 es).map eraseTime
        = (processContainers t2 es).map eraseTime := by
  intro es
  induction es with
  | nil => rfl
  | cons e rest ih =>
    have h := extractRecord_time_congr t1 t2 e
    unfold processContainers
    cases h1 : extractRecord t1 e with
    | error m =>
      cases h2 : extractRecord t2 e with
      | error m2 => exact ih
      | ok o2 => rw [h1, h2] at h; simp [Except.map] at h
    | ok o1 =>
      cases h2 : extractRecord t2 e with
      | error m2 => rw [h1, h2] at h; simp [Except.map] at h
      | ok o2 =>
        rw [h1, h2] at h
        simp only [Except.map, Option.map] at h
        cases o1 with
        | none =>
          cases o2 with
          | none => exact ih
          | some r2 => simp at h
        | some r1 =>
          cases o2 with
          | none => simp at h
          | some r2 =>
            simp only [Except.ok.injEq, Option.some.injEq] at h
            simp [ih, h]

/-- C10: determinism up to capture time: two runs of the pipeline on the
same document agree on success or failure, message, record order, and
every record field except the capture timestamp. -/
theorem c10_deterministic_up_to_captured_at (doc : Doc) (t1 t2 : Str) :
    eraseTimes (parse_html t1 doc) = eraseTimes (parse_html t2 doc) := by
  unfold parse_html
  cases hf : findContainers doc with
  | error m => rfl
  | ok es =>
    cases es with
    | nil => rfl
    | cons e rest =>
      dsimp only
      have h := processContainers_time_congr t1 t2 (e :: rest)
      cases h1 : processContainers t1 (e :: rest) with
      | nil =>
        cases h2 : processContainers t2 (e :: rest) with
        | nil => rfl
        | cons w ws => rw [h1, h2] at h; simp at h
      | cons v vs =>
        cases h2 : processContainers t2 (e :: rest) with
        | nil => rw [h1, h2] at h; simp at h
        | cons w ws =>
          rw [h1, h2] at h
          simpa [eraseTimes] using h

/-! Sign analysis of the Numeric Normalizer, for C7. -/

/-- Characters surviving `removeAllGo` come from the input string. -/
theorem mem_of_mem_removeAllGo (pat : Str) :
    ∀ (fuel : Nat) (s : Str) (x : Char), x ∈ removeAllGo pat fuel s → x ∈ s := by
  intro fuel
  induction fuel with
  | zero =>
    intro s x h
    cases s with
    | nil => simp [removeAllGo] at h
    | cons c cs => simp only [removeAllGo] at h; exact h
  | succ n ih =>
    intro s x h
    cases s with
    | nil => simp [removeAllGo] at h
    | cons c cs =>
      simp only [removeAllGo] at h
      by_cases hp : pat.isPrefixOf (c :: cs) = true
      · rw [if_pos hp] at h
        exact List.mem_of_mem_drop (ih _ x h)
      · rw [if_neg hp] at h
        rcases List.mem_cons.1 h with rfl | h2
        · exact List.mem_cons_self _ _
        · exact List.mem_cons_of_mem _ (ih _ x h2)

/-- Characters surviving `removeAll` come from the input string. -/
theorem mem_of_mem_removeAll {pat s : Str} {x : Char}
    (h : x ∈ removeAll pat s) : x ∈ s := by
  unfold removeAll at h
  by_cases hp : pat.isEmpty = true
  · rwa [if_pos hp] at h
  · rw [if_neg hp] at h
    exact mem_of_mem_removeAllGo pat _ s x h

/-- Characters surviving `strip` come from the input string. -/
theorem mem_of_mem_strip {s : Str} {x : Char} (h : x ∈ strip s) : x ∈ s := by
  unfold strip at h
  rw [List.mem_reverse] at h
  have h2 : x ∈ (s.dropWhile Char.isWhitespace).reverse :=
    (List.dropWhile_sublist _).subset h
  rw [List.mem_reverse] at h2
  exact (List.dropWhile_sublist _).subset h2

/-- The unsigned float parser only produces non-negative values. -/
theorem parseUnsignedFloat_nonneg {t : Str} {q : ℚ}
    (h : parseUnsignedFloat t = some q) : 0 ≤ q := by
  simp only [parseUnsignedFloat] at h
  split at h
  · split at h
    · cases h
    · simp only [Option.some.injEq] at h
      subst h
      exact Rat.mkRat_nonneg (Int.natCast_nonneg _) _
  · split at h
    · simp only [Option.some.injEq] at h
      subst h
      exact Rat.mkRat_nonneg (Int.natCast_nonneg _) _
    · cases h
  · cases h

/-- On input without a minus sign, the float parser only produces
non-negative values. -/
theorem parseFloat_nonneg {s : Str} {q : ℚ} (hminus : '-' ∉ s)
    (h : parseFloat s = some q) : 0 ≤ q := by
  unfold parseFloat at h
  cases hs : strip s with
  | nil => rw [hs] at h; cases h
  | cons c rest =>
    rw [hs] at h
    dsimp only at h
    have hc : c ≠ '-' := by
      intro hceq
      apply hminus
      subst hceq
      exact mem_of_mem_strip (by rw [hs]; exact List.mem_cons_self _ _)
    rw [if_neg hc] at h
    by_cases hcp : c = '+'
    · rw [if_pos hcp] at h
      exact parseUnsignedFloat_nonneg h
    · rw [if_neg hcp] at h
      exact parseUnsignedFloat_nonneg h

/-- On input without a minus sign, the integer parser only produces
non-negative values. -/
theorem parseInt_nonneg {s : Str} {n : ℤ} (hminus : '-' ∉ s)
    (h : parseInt s = some n) : 0 ≤ n := by
  unfold parseInt at h
  cases hs : strip s with
  | nil => rw [hs] at h; cases h
  | cons c rest =>
    rw [hs] at h
    dsimp only at h
    have hc : c ≠ '-' := by
      intro hceq
      apply hminus
      subst hceq
      exact mem_of_mem_strip (by rw [hs]; exact List.mem_cons_self _ _)
    rw [if_neg hc] at h
    by_cases hcp : c = '+'
    · rw [if_pos hcp] at h
      cases hpn : parseNatDigits rest with
      | none => rw [hpn] at h; cases h
      | some m =>
        rw [hpn] at h
        simp at h
        subst h
        exact Int.natCast_nonneg m
    · rw [if_neg hcp] at h
      cases hpn : parseNatDigits (c :: rest) with
      | none => rw [hpn] at h; cases h
      | some m =>
        rw [hpn] at h
        simp at h
        subst h
        exact Int.natCast_nonneg m

/-- Truncated scaling preserves non-negativity. -/
theorem ratTruncMul_nonneg {q : ℚ} {c : ℤ} (hq : 0 ≤ q) (hc : 0 ≤ c) :
    0 ≤ ratTruncMul q c :=
  Int.tdiv_nonneg (mul_nonneg (Rat.num_nonneg.2 hq) hc) (Int.natCast_nonneg _)

/-- C7 counterexample: the Numeric Normalizer happily parses a negative
count, so its output is not non-negative for every input string. -/
theorem c7_counterexample :
    convert_views_to_number ("-5 views".toList) = -5 ∧
    ¬ 0 ≤ convert_views_to_number ("-5 views".toList) :=
  ⟨by decide, by decide⟩

/-- C7 as amended: for every input string containing no minus sign the
Numeric Normalizer returns a non-negative integer, with 0 as the default
on any parse failure. -/
theorem c7_normalizer_nonneg_without_minus (s : Str) (hminus : '-' ∉ s) :
    0 ≤ convert_views_to_number s := by
  have htext :
      '-' ∉ strip (removeAll (" view".toList) (removeAll (" views".toList) s)) :=
    fun hx => hminus (mem_of_mem_removeAll (mem_of_mem_removeAll (mem_of_mem_strip hx)))
  simp only [convert_views_to_number, convert_views_attempt]
  set text := strip (removeAll (" view".toList) (removeAll (" views".toList) s)) with htdef
  by_cases hK : text.contains 'K' = true
  · rw [if_pos hK]
    cases hf : parseFloat (removeAll ['K'] text) with
    | none => simp
    | some q =>
      have hnn : '-' ∉ removeAll ['K'] text := fun hx => htext (mem_of_mem_removeAll hx)
      simp only [hf, Option.map_some', Option.getD_some]
      exact ratTruncMul_nonneg (parseFloat_nonneg hnn hf) (by norm_num)
  · rw [if_neg hK]
    by_cases hM : text.contains 'M' = true
    · rw [if_pos hM]
      cases hf : parseFloat (removeAll ['M'] text) with
      | none => simp
      | some q =>
        have hnn : '-' ∉ removeAll ['M'] text := fun hx => htext (mem_of_mem_removeAll hx)
        simp only [hf, Option.map_some', Option.getD_some]
        exact ratTruncMul_nonneg (parseFloat_nonneg hnn hf) (by norm_num)
    · rw [if_neg hM]
      by_cases hB : text.contains 'B' = true
      · rw [if_pos hB]
        cases hf : parseFloat (removeAll ['B'] text) with
        | none => simp
        | some q =>
          have hnn : '-' ∉ removeAll ['B'] text := fun hx => htext (mem_of_mem_removeAll hx)
          simp only [hf, Option.map_some', Option.getD_some]
          exact ratTruncMul_nonneg (parseFloat_nonneg hnn hf) (by norm_num)
      · rw [if_neg hB]
        cases hf : parseInt (removeAll [','] text) with
        | none => simp
        | some n =>
          have hnn : '-' ∉ removeAll [','] text := fun hx => htext (mem_of_mem_removeAll hx)
          simp only [hf, Option.getD_some]
          exact parseInt_nonneg hnn hf

/-- C7 witness: the amended clause at a concrete minus-free input. -/
theorem c7_witness :
    '-' ∉ ("8.8K views".toList) ∧ 0 ≤ convert_views_to_number ("8.8K views".toList) :=
  ⟨by decide, c7_normalizer_nonneg_without_minus ("8.8K views".toList) (by decide)⟩
